import Mathlib

/-!
Verification development for the web-storage-benchmark repository.

The embedding translates the benchmarking engine (`src/lib/benchmark.ts`
section of `App.tsx`) and the storage adapters (`src/lib/storage.ts`
section) into Lean.  Wall-clock durations returned by the host's
monotonic timer are modelled as exact rationals; an adapter's observable
behaviour during one timed trial (clear, timed write, timed read) is
modelled as a function from the trial index to either a pair of
durations or a thrown error.  Backend state for the round-trip and
clear-law claims is modelled at the byte level, with association lists
standing for the key-value stores the browser exposes.
-/

/-! ## Measurement engine (from `runBenchmark` and its helpers) -/

/-- A payload of a benchmark suite: display label and size in bytes. -/
structure Payload where
  label : String
  size : Nat
deriving DecidableEq

/-- A benchmark suite: a name and an ordered list of payloads. -/
structure BenchmarkSuite where
  name : String
  payloads : List Payload
deriving DecidableEq

/-- One row of benchmark output, as produced by `runBenchmark`. -/
structure BenchmarkResult where
  adapterName : String
  suiteName : String
  payloadSize : String
  writeTime : ℚ
  readTime : ℚ
  blockingTime : ℚ
  error : Option String
deriving DecidableEq

/-- The engine's view of a storage adapter.  `name` is the adapter's
display name.  `trial key data i` is the observable outcome of the
`i`-th invocation of `runOnce(adapter, key, data)` for this payload:
either the measured `(writeTime, readTime)` pair, or the error thrown by
any operation inside the trial (`clear`, `write` or `read`).  A thrown
JavaScript error may lack a usable `message`, which is modelled by
`Except.error none`. -/
structure StorageAdapter where
  name : String
  trial : String → String → Nat → Except (Option String) (ℚ × ℚ)

/-- `generatePayload` from the source: a string of `size` copies of 'a'. -/
def generatePayload (size : Nat) : String :=
  String.mk (List.replicate size 'a')

/-- The storage key derived for a payload in `runBenchmark`. -/
def keyFor (p : Payload) : String :=
  "bench_" ++ p.label

/-- The error message recorded by the catch branch of `runBenchmark`:
`e.message || "Quota exceeded or unknown error"` (a missing or empty
message is falsy in JavaScript and selects the fallback). -/
def errMessage : Option String → String
  | none => "Quota exceeded or unknown error"
  | some m => if m = "" then "Quota exceeded or unknown error" else m

/-- The `while (runs < targetRuns)` loop of `runBenchmark`, started at
trial index `i` with `n` further trials requested.  Returns the summed
extra write/read times (or the first thrown error), together with the
number of extra trials actually executed. -/
def extraTrials (a : StorageAdapter) (key data : String) :
    Nat → Nat → (Except (Option String) (ℚ × ℚ)) × Nat
  | _, 0 => (.ok (0, 0), 0)
  | i, n + 1 =>
    match a.trial key data i with
    | .error e => (.error e, 1)
    | .ok (w, r) =>
      match extraTrials a key data (i + 1) n with
      | (.error e, c) => (.error e, c + 1)
      | (.ok (w2, r2), c) => (.ok (w + w2, r + r2), c + 1)

/-- The adaptive choice of `targetRuns` in `runBenchmark`: 3 trials when
the first combined time is below 10 ms, 2 below 50 ms, otherwise 1. -/
def targetRunsFor (total : ℚ) : Nat :=
  if total < 10 then 3 else if total < 50 then 2 else 1

/-- The per-payload body of `runBenchmark`: first trial, adaptive choice
of `targetRuns`, remaining trials, and the division by `runs` that
produces the reported means.  Returns the outcome together with the
number of trials that actually ran. -/
def measurePayload (a : StorageAdapter) (p : Payload) :
    (Except (Option String) (ℚ × ℚ)) × Nat :=
  match a.trial (keyFor p) (generatePayload p.size) 0 with
  | .error e => (.error e, 1)
  | .ok (w0, r0) =>
    match extraTrials a (keyFor p) (generatePayload p.size) 1 (targetRunsFor (w0 + r0) - 1) with
    | (.error e, c) => (.error e, c + 1)
    | (.ok (we, re), c) =>
      (.ok ((w0 + we) / ((c + 1 : ℕ) : ℚ), (r0 + re) / ((c + 1 : ℕ) : ℚ)), c + 1)

/-- Number of `runOnce` invocations `runBenchmark` performs for payload
`p` of adapter `a` (the source's final value of `runs`, also counting a
trial that ended in a thrown error). -/
def trialsPerformed (a : StorageAdapter) (p : Payload) : Nat :=
  (measurePayload a p).2

/-- Assembly of one `BenchmarkResult` in `runBenchmark`: the success
branch fills the timing fields and the synchronous-backend
`blockingTime` rule; the catch branch records zeroed timings and the
error message. -/
def processPayload (a : StorageAdapter) (suiteName : String) (p : Payload) :
    BenchmarkResult :=
  match measurePayload a p with
  | (.error e, _) =>
    { adapterName := a.name, suiteName := suiteName, payloadSize := p.label,
      writeTime := 0, readTime := 0, blockingTime := 0,
      error := some (errMessage e) }
  | (.ok (w, r), _) =>
    { adapterName := a.name, suiteName := suiteName, payloadSize := p.label,
      writeTime := w, readTime := r,
      blockingTime :=
        if a.name = "localStorage" ∨ a.name = "sessionStorage" ∨ a.name = "Cookies"
        then w + r else 1/2,
      error := none }

/-- `runBenchmark(adapter, suite)`: one result per payload, in payload
order. -/
def runBenchmark (a : StorageAdapter) (s : BenchmarkSuite) : List BenchmarkResult :=
  s.payloads.map (processPayload a s.name)

/-- The static suite catalog from the source. -/
def suites : List BenchmarkSuite :=
  [ ⟨"Save a preference (128 B)", [⟨"128 B", 128⟩]⟩,
    ⟨"Persist UI state (1 KB)", [⟨"1 KB", 1024⟩]⟩,
    ⟨"Persist UI state (10 KB)", [⟨"10 KB", 10 * 1024⟩]⟩,
    ⟨"Offline dataset (100 KB)", [⟨"100 KB", 100 * 1024⟩]⟩,
    ⟨"Offline dataset (1 MB)", [⟨"1 MB", 1024 * 1024⟩]⟩,
    ⟨"Offline dataset (2 MB)", [⟨"2 MB", 2 * 1024 * 1024⟩]⟩,
    ⟨"Offline dataset (4 MB)", [⟨"4 MB", 4 * 1024 * 1024⟩]⟩,
    ⟨"Offline dataset (8 MB)", [⟨"8 MB", 8 * 1024 * 1024⟩]⟩,
    ⟨"Offline dataset (16 MB)", [⟨"16 MB", 16 * 1024 * 1024⟩]⟩,
    ⟨"Large dataset (32 MB)", [⟨"32 MB", 32 * 1024 * 1024⟩]⟩,
    ⟨"Large dataset (64 MB)", [⟨"64 MB", 64 * 1024 * 1024⟩]⟩,
    ⟨"Large dataset (100 MB)", [⟨"100 MB", 100 * 1024 * 1024⟩]⟩ ]

/-! ## Byte-level storage models (from the adapter classes)

Keys and values are byte strings, modelled as lists of naturals.  The
browser-side behaviour of each backend (a key-value map isolated under
the adapter's own namespace) is outside the repository's sources;
following the spec it is modelled as an association-list store.  The
logic the adapter classes themselves contain — the falsy-to-null
coercions, the percent-encoding of cookies, the cookie-string parsing,
the OPFS capability check — is translated from the source. -/

/-- A byte string. -/
abbrev Bytes := List Nat

/-- Backend state shared by the map-like adapters: an association list
from keys to values.  Modelled from the spec: each backend behaves as an
isolated key-value map. -/
abbrev Store := List (Bytes × Bytes)

/-- Insert-or-overwrite, replacing the first entry with the given key. -/
def setStore : Store → Bytes → Bytes → Store
  | [], k, v => [(k, v)]
  | (k', v') :: t, k, v =>
    if k' = k then (k, v) :: t else (k', v') :: setStore t k v

/-- Lookup of the first entry with the given key. -/
def lookupStore : Store → Bytes → Option Bytes
  | [], _ => none
  | (k', v') :: t, k => if k' = k then some v' else lookupStore t k

/-- Removal of every entry with the given key. -/
def eraseStore (st : Store) (k : Bytes) : Store :=
  st.filter (fun e => !(e.1 == k))

/-! ### Percent-encoding (from `CookieAdapter`'s use of
`encodeURIComponent` / `decodeURIComponent`)

Modelled from the spec of those host functions at byte level: a byte is
kept verbatim when it is unreserved (alphanumeric or one of
`- _ . ! ~ * ' ( )`), and otherwise written as `%` followed by two
uppercase hexadecimal digits. -/

/-- Bytes `encodeURIComponent` leaves unescaped. -/
def isUnreservedByte (b : Nat) : Bool :=
  (48 ≤ b && b ≤ 57) || (65 ≤ b && b ≤ 90) || (97 ≤ b && b ≤ 122) ||
    b == 45 || b == 95 || b == 46 || b == 33 || b == 126 ||
    b == 42 || b == 39 || b == 40 || b == 41

/-- Uppercase hexadecimal digit for a value below 16. -/
def hexDigit (n : Nat) : Nat :=
  if n < 10 then 48 + n else 55 + n

/-- Value of a hexadecimal digit byte. -/
def hexVal (b : Nat) : Nat :=
  if 48 ≤ b && b ≤ 57 then b - 48
  else if 65 ≤ b && b ≤ 70 then b - 55
  else if 97 ≤ b && b ≤ 102 then b - 87
  else 0

/-- Encoding of one byte. -/
def encByte (b : Nat) : Bytes :=
  if isUnreservedByte b then [b] else [37, hexDigit (b / 16), hexDigit (b % 16)]

/-- `encodeURIComponent` over a byte string. -/
def encodeURI : Bytes → Bytes
  | [] => []
  | b :: t => encByte b ++ encodeURI t

/-- `decodeURIComponent` over a byte string (applied by the source only
to well-formed encoder output; a stray `%` is kept verbatim here). -/
def decodeURI : Bytes → Bytes
  | [] => []
  | b :: t =>
    if b = 37 then
      match t with
      | h1 :: h2 :: t2 => (16 * hexVal h1 + hexVal h2) :: decodeURI t2
      | t1 => 37 :: decodeURI t1
    else b :: decodeURI t

/-! ### Cookie adapter (from `CookieAdapter`)

The browser cookie jar is modelled from the spec of `document.cookie`:
an ordered list of (raw name, raw value) pairs; assigning
`name=value; path=/; Max-Age=3600` inserts or overwrites the cookie of
that raw name, assigning a negative `Max-Age` removes it, and the getter
serialises the jar as `name1=value1; name2=value2; ...`.  The splitting,
trimming, prefix matching and encoding around that jar are translated
from the source. -/

/-- The browser cookie jar. -/
structure CookieJar where
  entries : Store
deriving DecidableEq

/-- One cookie as it appears in the `document.cookie` string. -/
def renderCookie (e : Bytes × Bytes) : Bytes :=
  e.1 ++ 61 :: e.2

/-- Join with `"; "` (bytes 59, 32), as the `document.cookie` getter does. -/
def joinSemi : List Bytes → Bytes
  | [] => []
  | r :: rs =>
    match rs with
    | [] => r
    | _ :: _ => r ++ 59 :: 32 :: joinSemi rs

/-- The `document.cookie` string of a jar. -/
def cookieString (jar : CookieJar) : Bytes :=
  joinSemi (jar.entries.map renderCookie)

/-- JavaScript `String.prototype.split` on a one-byte separator: always
yields at least one (possibly empty) segment. -/
def splitB (sep : Nat) : Bytes → List Bytes
  | [] => [[]]
  | b :: t =>
    if b = sep then [] :: splitB sep t
    else
      match splitB sep t with
      | [] => [[b]]
      | s :: rest => (b :: s) :: rest

/-- The `while (c.charAt(0) === ' ')` loop of `CookieAdapter.read`. -/
def dropSpaces : Bytes → Bytes
  | [] => []
  | b :: t => if b = 32 then dropSpaces t else b :: t

/-- JavaScript `String.prototype.trim` restricted to spaces. -/
def trimB (x : Bytes) : Bytes :=
  (dropSpaces (dropSpaces x).reverse).reverse

/-- `c.indexOf(nameEQ) === 0`: Boolean prefix test. -/
def hasPrefixB : Bytes → Bytes → Bool
  | [], _ => true
  | _ :: _, [] => false
  | a :: as, b :: bs => a == b && hasPrefixB as bs

/-- The search loop of `CookieAdapter.read` over the split segments:
trim leading spaces, return the decoded remainder of the first segment
starting with `nameEQ`. -/
def findCookieSeg (nameEQ : Bytes) : List Bytes → Option Bytes
  | [] => none
  | s :: rest =>
    if hasPrefixB nameEQ (dropSpaces s) then
      some (decodeURI ((dropSpaces s).drop nameEQ.length))
    else findCookieSeg nameEQ rest

/-- `CookieAdapter.write`: store the encoded value under the encoded key. -/
def cookieWrite (jar : CookieJar) (k v : Bytes) : CookieJar :=
  ⟨setStore jar.entries (encodeURI k) (encodeURI v)⟩

/-- `CookieAdapter.read`: split `document.cookie` on `';'`, trim, find
the first segment starting with `encodeURIComponent(key) + "="`, decode
its remainder. -/
def cookieRead (jar : CookieJar) (k : Bytes) : Option Bytes :=
  findCookieSeg (encodeURI k ++ [61]) (splitB 59 (cookieString jar))

/-- `CookieAdapter.delete`: expire the cookie named
`encodeURIComponent(key)`. -/
def cookieDelete (jar : CookieJar) (k : Bytes) : CookieJar :=
  ⟨eraseStore jar.entries (encodeURI k)⟩

/-- `CookieAdapter.clear`: snapshot `document.cookie`, split on `';'`,
take each segment's part before the first `'='`, trim it, and call
`delete` on it (which re-encodes it). -/
def cookieClear (jar : CookieJar) : CookieJar :=
  List.foldl
    (fun j seg => cookieDelete j (trimB (seg.takeWhile (fun b => !(b == 61)))))
    jar (splitB 59 (cookieString jar))

/-- Well-formedness of a browser cookie jar: raw names contain no `';'`,
`'='` or space, raw values contain no `';'`.  Modelled from the spec of
the cookie store (the browser never produces such names or values). -/
def jarWF (jar : CookieJar) : Prop :=
  ∀ e ∈ jar.entries, 59 ∉ e.1 ∧ 61 ∉ e.1 ∧ 32 ∉ e.1 ∧ 59 ∉ e.2

/-! ### Map-like adapters

For `localStorage`, `sessionStorage`, Cache Storage, Dexie.js and
localForage the adapter methods forward directly to the backend;
modelled from the spec, the backend is an isolated key-value map.  The
store.js and IndexedDB adapters additionally coerce the value read
through `|| null` in the source. -/

/-- `LocalStorageAdapter.write`. -/
def lsWrite (st : Store) (k v : Bytes) : Store := setStore st k v

/-- `LocalStorageAdapter.read`. -/
def lsRead (st : Store) (k : Bytes) : Option Bytes := lookupStore st k

/-- `LocalStorageAdapter.delete`. -/
def lsDelete (st : Store) (k : Bytes) : Store := eraseStore st k

/-- `LocalStorageAdapter.clear`. -/
def lsClear (_st : Store) : Store := []

/-- `SessionStorageAdapter.write`. -/
def ssWrite (st : Store) (k v : Bytes) : Store := setStore st k v

/-- `SessionStorageAdapter.read`. -/
def ssRead (st : Store) (k : Bytes) : Option Bytes := lookupStore st k

/-- `SessionStorageAdapter.delete`. -/
def ssDelete (st : Store) (k : Bytes) : Store := eraseStore st k

/-- `SessionStorageAdapter.clear`. -/
def ssClear (_st : Store) : Store := []

/-- `IndexedDBAdapter.write` (`store.put(value, key)`). -/
def idbWrite (st : Store) (k v : Bytes) : Store := setStore st k v

/-- `IndexedDBAdapter.read`: `resolve(request.result || null)` — an
empty-string result is falsy and becomes `null`. -/
def idbRead (st : Store) (k : Bytes) : Option Bytes :=
  match lookupStore st k with
  | none => none
  | some v => if v = [] then none else some v

/-- `IndexedDBAdapter.delete`. -/
def idbDelete (st : Store) (k : Bytes) : Store := eraseStore st k

/-- `IndexedDBAdapter.clear`. -/
def idbClear (_st : Store) : Store := []

/-- `CacheStorageAdapter.write`. -/
def cacheWrite (st : Store) (k v : Bytes) : Store := setStore st k v

/-- `CacheStorageAdapter.read`: matched responses yield their text,
otherwise `null`. -/
def cacheRead (st : Store) (k : Bytes) : Option Bytes := lookupStore st k

/-- `CacheStorageAdapter.delete`. -/
def cacheDelete (st : Store) (k : Bytes) : Store := eraseStore st k

/-- `CacheStorageAdapter.clear` (drops the whole named cache). -/
def cacheClear (_st : Store) : Store := []

/-- `DexieAdapter.write` (`entries.put({key, value})`). -/
def dexieWrite (st : Store) (k v : Bytes) : Store := setStore st k v

/-- `DexieAdapter.read`: `entry ? entry.value : null`. -/
def dexieRead (st : Store) (k : Bytes) : Option Bytes := lookupStore st k

/-- `DexieAdapter.delete`. -/
def dexieDelete (st : Store) (k : Bytes) : Store := eraseStore st k

/-- `DexieAdapter.clear`. -/
def dexieClear (_st : Store) : Store := []

/-- `StoreJsAdapter.write` (`store.set(key, value)`). -/
def storeJsWrite (st : Store) (k v : Bytes) : Store := setStore st k v

/-- `StoreJsAdapter.read`: `store.get(key) || null` — an empty string is
falsy and becomes `null`. -/
def storeJsRead (st : Store) (k : Bytes) : Option Bytes :=
  match lookupStore st k with
  | none => none
  | some v => if v = [] then none else some v

/-- `StoreJsAdapter.delete`. -/
def storeJsDelete (st : Store) (k : Bytes) : Store := eraseStore st k

/-- `StoreJsAdapter.clear`. -/
def storeJsClear (_st : Store) : Store := []

/-- `LocalForageAdapter.write`. -/
def lfWrite (st : Store) (k v : Bytes) : Store := setStore st k v

/-- `LocalForageAdapter.read` (`getItem` yields the value or `null`). -/
def lfRead (st : Store) (k : Bytes) : Option Bytes := lookupStore st k

/-- `LocalForageAdapter.delete`. -/
def lfDelete (st : Store) (k : Bytes) : Store := eraseStore st k

/-- `LocalForageAdapter.clear`. -/
def lfClear (_st : Store) : Store := []

/-! ### PouchDB adapter

The document database is modelled from the spec as a map from `_id` to
the document's `value`; `db.get` of a missing id rejects with status
404.  The 404 handling in each method is translated from the source. -/

/-- `PouchDBAdapter.write`: read the current revision first; a 404 on
that pre-read creates the document instead. -/
def pouchWrite (st : Store) (k v : Bytes) : Store := setStore st k v

/-- `PouchDBAdapter.read`: `doc.value`, or `null` after a 404. -/
def pouchRead (st : Store) (k : Bytes) : Option Bytes := lookupStore st k

/-- `PouchDBAdapter.delete`: get then remove; a 404 is swallowed, so an
absent key leaves the database untouched and succeeds. -/
def pouchDelete (st : Store) (k : Bytes) : Except String Store :=
  match lookupStore st k with
  | none => .ok st
  | some _ => .ok (eraseStore st k)

/-- `PouchDBAdapter.clear`: bulk-delete every enumerated document. -/
def pouchClear (_st : Store) : Except String Store := .ok []

/-! ### OPFS adapter

`navigator.storage.getDirectory` may be unavailable, which the source
detects in `getRoot`.  The directory handle itself is modelled from the
web File System spec: `getFileHandle` without `create` and `removeEntry`
both reject with `NotFoundError` when no entry of that name exists. -/

/-- State of the origin-private file system as seen by `OPFSAdapter`. -/
structure OPFSState where
  supported : Bool
  files : Store
deriving DecidableEq

/-- `OPFSAdapter.getRoot`: fail fast when the capability is absent. -/
def opfsGetRoot (st : OPFSState) : Except String Unit :=
  if st.supported then .ok () else .error "OPFS not supported"

/-- `OPFSAdapter.write`: create-or-truncate the file and write the value. -/
def opfsWrite (st : OPFSState) (k v : Bytes) : Except String OPFSState :=
  match opfsGetRoot st with
  | .error e => .error e
  | .ok _ => .ok ⟨st.supported, setStore st.files k v⟩

/-- The `try` block of `OPFSAdapter.read`. -/
def opfsReadImpl (st : OPFSState) (k : Bytes) : Except String Bytes :=
  match opfsGetRoot st with
  | .error e => .error e
  | .ok _ =>
    match lookupStore st.files k with
    | none => .error "NotFoundError"
    | some v => .ok v

/-- `OPFSAdapter.read`: any error in the `try` block — including the
missing-capability error from `getRoot` — is caught and turned into
`null`. -/
def opfsRead (st : OPFSState) (k : Bytes) : Except String (Option Bytes) :=
  match opfsReadImpl st k with
  | .error _ => .ok none
  | .ok v => .ok (some v)

/-- `OPFSAdapter.delete`: `removeEntry` with no handling of the
`NotFoundError` it rejects with for an absent key. -/
def opfsDelete (st : OPFSState) (k : Bytes) : Except String OPFSState :=
  match opfsGetRoot st with
  | .error e => .error e
  | .ok _ =>
    match lookupStore st.files k with
    | none => .error "NotFoundError"
    | some _ => .ok ⟨st.supported, eraseStore st.files k⟩

/-- `OPFSAdapter.clear`: remove every entry of the root directory. -/
def opfsClear (st : OPFSState) : Except String OPFSState :=
  match opfsGetRoot st with
  | .error e => .error e
  | .ok _ => .ok ⟨st.supported, []⟩

/-! ## Helper lemmas on the engine -/

theorem processPayload_err {a : StorageAdapter} {p : Payload} {nm : String}
    {e : Option String} {c : Nat} (h : measurePayload a p = (.error e, c)) :
    processPayload a nm p =
      { adapterName := a.name, suiteName := nm, payloadSize := p.label,
        writeTime := 0, readTime := 0, blockingTime := 0,
        error := some (errMessage e) } := by
  unfold processPayload
  rw [h]

theorem processPayload_ok {a : StorageAdapter} {p : Payload} {nm : String}
    {w r : ℚ} {c : Nat} (h : measurePayload a p = (.ok (w, r), c)) :
    processPayload a nm p =
      { adapterName := a.name, suiteName := nm, payloadSize := p.label,
        writeTime := w, readTime := r,
        blockingTime :=
          if a.name = "localStorage" ∨ a.name = "sessionStorage" ∨ a.name = "Cookies"
          then w + r else 1/2,
        error := none } := by
  unfold processPayload
  rw [h]

theorem processPayload_adapterName (a : StorageAdapter) (nm : String) (p : Payload) :
    (processPayload a nm p).adapterName = a.name := by
  rcases h : measurePayload a p with ⟨res, c⟩
  cases res with
  | error e => rw [processPayload_err h]
  | ok pr => obtain ⟨w, r⟩ := pr; rw [processPayload_ok h]

theorem processPayload_suiteName (a : StorageAdapter) (nm : String) (p : Payload) :
    (processPayload a nm p).suiteName = nm := by
  rcases h : measurePayload a p with ⟨res, c⟩
  cases res with
  | error e => rw [processPayload_err h]
  | ok pr => obtain ⟨w, r⟩ := pr; rw [processPayload_ok h]

theorem processPayload_payloadSize (a : StorageAdapter) (nm : String) (p : Payload) :
    (processPayload a nm p).payloadSize = p.label := by
  rcases h : measurePayload a p with ⟨res, c⟩
  cases res with
  | error e => rw [processPayload_err h]
  | ok pr => obtain ⟨w, r⟩ := pr; rw [processPayload_ok h]

theorem measurePayload_fast {a : StorageAdapter} {p : Payload} {w0 r0 w1 r1 w2 r2 : ℚ}
    (h0 : a.trial (keyFor p) (generatePayload p.size) 0 = .ok (w0, r0))
    (h1 : a.trial (keyFor p) (generatePayload p.size) 1 = .ok (w1, r1))
    (h2 : a.trial (keyFor p) (generatePayload p.size) 2 = .ok (w2, r2))
    (hlt : w0 + r0 < 10) :
    measurePayload a p = (.ok ((w0 + w1 + w2) / 3, (r0 + r1 + r2) / 3), 3) := by
  have ht : targetRunsFor (w0 + r0) = 3 := by unfold targetRunsFor; rw [if_pos hlt]
  have he : extraTrials a (keyFor p) (generatePayload p.size) 1 2 =
      (.ok (w1 + (w2 + 0), r1 + (r2 + 0)), 2) := by
    simp [extraTrials, h1, h2]
  unfold measurePayload
  rw [h0]
  dsimp only
  rw [ht]
  norm_num [he]
  constructor <;> ring

theorem measurePayload_mid {a : StorageAdapter} {p : Payload} {w0 r0 w1 r1 : ℚ}
    (h0 : a.trial (keyFor p) (generatePayload p.size) 0 = .ok (w0, r0))
    (h1 : a.trial (keyFor p) (generatePayload p.size) 1 = .ok (w1, r1))
    (hge : 10 ≤ w0 + r0) (hlt : w0 + r0 < 50) :
    measurePayload a p = (.ok ((w0 + w1) / 2, (r0 + r1) / 2), 2) := by
  have ht : targetRunsFor (w0 + r0) = 2 := by
    unfold targetRunsFor
    rw [if_neg (by linarith), if_pos hlt]
  have he : extraTrials a (keyFor p) (generatePayload p.size) 1 1 =
      (.ok (w1 + 0, r1 + 0), 1) := by
    simp [extraTrials, h1]
  unfold measurePayload
  rw [h0]
  dsimp only
  rw [ht]
  norm_num [he]

theorem measurePayload_slow {a : StorageAdapter} {p : Payload} {w0 r0 : ℚ}
    (h0 : a.trial (keyFor p) (generatePayload p.size) 0 = .ok (w0, r0))
    (hge : 50 ≤ w0 + r0) :
    measurePayload a p = (.ok (w0, r0), 1) := by
  have ht : targetRunsFor (w0 + r0) = 1 := by
    unfold targetRunsFor
    rw [if_neg (by linarith), if_neg (by linarith)]
  unfold measurePayload
  rw [h0]
  dsimp only
  rw [ht]
  norm_num [show extraTrials a (keyFor p) (generatePayload p.size) 1 0 = (.ok (0, 0), 0) from rfl]

theorem measurePayload_err0 {a : StorageAdapter} {p : Payload} {e : Option String}
    (h0 : a.trial (keyFor p) (generatePayload p.size) 0 = .error e) :
    measurePayload a p = (.error e, 1) := by
  unfold measurePayload
  rw [h0]

theorem measurePayload_err1 {a : StorageAdapter} {p : Payload} {w0 r0 : ℚ}
    {e : Option String}
    (h0 : a.trial (keyFor p) (generatePayload p.size) 0 = .ok (w0, r0))
    (hlt : w0 + r0 < 10)
    (h1 : a.trial (keyFor p) (generatePayload p.size) 1 = .error e) :
    measurePayload a p = (.error e, 2) := by
  have ht : targetRunsFor (w0 + r0) = 3 := by unfold targetRunsFor; rw [if_pos hlt]
  have he : extraTrials a (keyFor p) (generatePayload p.size) 1 2 = (.error e, 1) := by
    simp [extraTrials, h1]
  unfold measurePayload
  rw [h0]
  dsimp only
  rw [ht]
  norm_num [he]

theorem extraTrials_ok_nonneg {a : StorageAdapter} {key data : String}
    (hnn : ∀ i w r, a.trial key data i = .ok (w, r) → 0 ≤ w ∧ 0 ≤ r) :
    ∀ n i w r c, extraTrials a key data i n = (.ok (w, r), c) → 0 ≤ w ∧ 0 ≤ r := by
  intro n
  induction n with
  | zero =>
    intro i w r c h
    simp only [extraTrials] at h
    obtain ⟨h1, h2⟩ := Prod.mk.injEq .. ▸ h
    obtain ⟨hw, hr⟩ := Prod.mk.injEq .. ▸ (Except.ok.inj h1)
    constructor <;> simp [← hw, ← hr]
  | succ n ih =>
    intro i w r c h
    unfold extraTrials at h
    cases htr : a.trial key data i with
    | error e => rw [htr] at h; simp at h
    | ok pr =>
      obtain ⟨w1, r1⟩ := pr
      rw [htr] at h
      rcases he : extraTrials a key data (i + 1) n with ⟨res, c2⟩
      rw [he] at h
      cases res with
      | error e => simp at h
      | ok pr2 =>
        obtain ⟨w2, r2⟩ := pr2
        simp only [Prod.mk.injEq, Except.ok.injEq] at h
        obtain ⟨⟨hw, hr⟩, _⟩ := h
        have hh1 := hnn i w1 r1 htr
        have hh2 := ih (i + 1) w2 r2 c2 he
        constructor
        · rw [← hw]; exact add_nonneg hh1.1 hh2.1
        · rw [← hr]; exact add_nonneg hh1.2 hh2.2

theorem measurePayload_ok_nonneg {a : StorageAdapter} {p : Payload} {w r : ℚ} {c : Nat}
    (hnn : ∀ key data i w r, a.trial key data i = .ok (w, r) → 0 ≤ w ∧ 0 ≤ r)
    (h : measurePayload a p = (.ok (w, r), c)) : 0 ≤ w ∧ 0 ≤ r := by
  unfold measurePayload at h
  cases h0 : a.trial (keyFor p) (generatePayload p.size) 0 with
  | error e => rw [h0] at h; simp at h
  | ok pr =>
    obtain ⟨w0, r0⟩ := pr
    rw [h0] at h
    dsimp only at h
    rcases he : extraTrials a (keyFor p) (generatePayload p.size) 1
        (targetRunsFor (w0 + r0) - 1) with ⟨res, c2⟩
    rw [he] at h
    cases res with
    | error e => simp at h
    | ok pr2 =>
      obtain ⟨we, re⟩ := pr2
      simp only [Prod.mk.injEq, Except.ok.injEq] at h
      obtain ⟨⟨hw, hr⟩, _⟩ := h
      have hh0 := hnn _ _ _ _ _ h0
      have hhe := extraTrials_ok_nonneg (hnn _ _) _ _ _ _ _ he
      constructor
      · rw [← hw]
        exact div_nonneg (add_nonneg hh0.1 hhe.1) (by positivity)
      · rw [← hr]
        exact div_nonneg (add_nonneg hh0.2 hhe.2) (by positivity)

/-! ## Witness fixtures: concrete adapters and suites -/

/-- A synchronous-named adapter whose every trial measures 2 ms write
and 3 ms read. -/
def wAdapterFast : StorageAdapter := ⟨"localStorage", fun _ _ _ => .ok (2, 3)⟩

/-- An adapter whose first trial succeeds fast and whose second trial
throws an error carrying the message "boom". -/
def wAdapterErr : StorageAdapter :=
  ⟨"OPFS", fun _ _ i => if i == 0 then .ok (2, 3) else .error (some "boom")⟩

/-- A one-payload suite. -/
def wSuite : BenchmarkSuite := ⟨"suite", [⟨"128 B", 128⟩]⟩

/-- The payload of `wSuite`. -/
def wPayload : Payload := ⟨"128 B", 128⟩

/-- A two-payload suite. -/
def wSuiteE : BenchmarkSuite := ⟨"s2", [⟨"128 B", 128⟩, ⟨"1 KB", 1024⟩]⟩

/-- The result `runBenchmark wAdapterFast wSuite` produces. -/
def wResultFast : BenchmarkResult :=
  ⟨"localStorage", "suite", "128 B", 2, 3, 5, none⟩

/-! ## Claims -/

/-- C1: for every adapter A and suite S, `runBenchmark(A, S)` returns a
sequence of exactly `|S.payloads|` results, one per payload in payload
order, each with `adapterName = A.name` and `suiteName = S.name`,
whether or not any payload errors. -/
theorem C1_runBenchmark_shape (a : StorageAdapter) (s : BenchmarkSuite) :
    (runBenchmark a s).length = s.payloads.length ∧
    (runBenchmark a s).map (fun r => r.payloadSize) = s.payloads.map (fun p => p.label) ∧
    ∀ r ∈ runBenchmark a s, r.adapterName = a.name ∧ r.suiteName = s.name := by
  refine ⟨by simp [runBenchmark], ?_, ?_⟩
  · rw [runBenchmark, List.map_map]
    exact List.map_congr_left fun p _ => processPayload_payloadSize a s.name p
  · intro r hr
    obtain ⟨p, hp, rfl⟩ := List.mem_map.mp hr
    exact ⟨processPayload_adapterName a s.name p, processPayload_suiteName a s.name p⟩

/-- The fixture result is what `processPayload` computes on the fixture
adapter and payload. -/
theorem wResultFast_eq :
    processPayload wAdapterFast wSuite.name wPayload = wResultFast := by
  have hm := measurePayload_fast
    (rfl : wAdapterFast.trial (keyFor wPayload) (generatePayload wPayload.size) 0 = .ok (2, 3))
    (rfl : wAdapterFast.trial (keyFor wPayload) (generatePayload wPayload.size) 1 = .ok (2, 3))
    (rfl : wAdapterFast.trial (keyFor wPayload) (generatePayload wPayload.size) 2 = .ok (2, 3))
    (by norm_num : (2 : ℚ) + 3 < 10)
  have hm2 : measurePayload wAdapterFast wPayload = (.ok (2, 3), 3) := by
    rw [hm]; norm_num
  rw [processPayload_ok hm2]
  norm_num [wAdapterFast, wResultFast, wSuite, wPayload]

/-- The fixture result is a member of the fixture run. -/
theorem wResultFast_mem : wResultFast ∈ runBenchmark wAdapterFast wSuite := by
  have hp : wPayload ∈ wSuite.payloads := by simp [wSuite, wPayload]
  have h := List.mem_map_of_mem (processPayload wAdapterFast wSuite.name) hp
  rw [wResultFast_eq] at h
  exact h

/-- Witness for C1 at a concrete adapter and suite. -/
theorem C1_runBenchmark_shape_witness :
    wResultFast ∈ runBenchmark wAdapterFast wSuite ∧
    wResultFast.adapterName = wAdapterFast.name ∧
    wResultFast.suiteName = wSuite.name :=
  ⟨wResultFast_mem,
    (C1_runBenchmark_shape wAdapterFast wSuite).2.2 wResultFast wResultFast_mem⟩

/-- C2: for each payload, a first combined trial time strictly under
10 ms yields exactly 3 trials, at least 10 and strictly under 50 ms
yields exactly 2, otherwise 1; the reported `writeTime` and `readTime`
are the arithmetic means over however many trials ran. -/
theorem C2_adaptive_repetition (a : StorageAdapter) (nm : String) (p : Payload)
    (w0 r0 w1 r1 w2 r2 : ℚ)
    (h0 : a.trial (keyFor p) (generatePayload p.size) 0 = .ok (w0, r0))
    (h1 : a.trial (keyFor p) (generatePayload p.size) 1 = .ok (w1, r1))
    (h2 : a.trial (keyFor p) (generatePayload p.size) 2 = .ok (w2, r2)) :
    (∀ s : BenchmarkSuite, p ∈ s.payloads → processPayload a s.name p ∈ runBenchmark a s) ∧
    (w0 + r0 < 10 → trialsPerformed a p = 3 ∧
      (processPayload a nm p).writeTime = (w0 + w1 + w2) / 3 ∧
      (processPayload a nm p).readTime = (r0 + r1 + r2) / 3) ∧
    (10 ≤ w0 + r0 → w0 + r0 < 50 → trialsPerformed a p = 2 ∧
      (processPayload a nm p).writeTime = (w0 + w1) / 2 ∧
      (processPayload a nm p).readTime = (r0 + r1) / 2) ∧
    (50 ≤ w0 + r0 → trialsPerformed a p = 1 ∧
      (processPayload a nm p).writeTime = w0 ∧
      (processPayload a nm p).readTime = r0) := by
  refine ⟨fun s hp => List.mem_map_of_mem _ hp, ?_, ?_, ?_⟩
  · intro hlt
    have hm := measurePayload_fast h0 h1 h2 hlt
    exact ⟨by unfold trialsPerformed; rw [hm], by rw [processPayload_ok hm],
      by rw [processPayload_ok hm]⟩
  · intro hge hlt
    have hm := measurePayload_mid h0 h1 hge hlt
    exact ⟨by unfold trialsPerformed; rw [hm], by rw [processPayload_ok hm],
      by rw [processPayload_ok hm]⟩
  · intro hge
    have hm := measurePayload_slow h0 hge
    exact ⟨by unfold trialsPerformed; rw [hm], by rw [processPayload_ok hm],
      by rw [processPayload_ok hm]⟩

/-- Witness for C2: a 5 ms first trial gives 3 trials and mean timings. -/
theorem C2_adaptive_repetition_witness :
    (2 : ℚ) + 3 < 10 ∧ trialsPerformed wAdapterFast wPayload = 3 ∧
    (processPayload wAdapterFast "suite" wPayload).writeTime = (2 + 2 + 2) / 3 ∧
    (processPayload wAdapterFast "suite" wPayload).readTime = (3 + 3 + 3) / 3 := by
  have h := (C2_adaptive_repetition wAdapterFast "suite" wPayload 2 3 2 3 2 3
    rfl rfl rfl).2.1 (by norm_num)
  exact ⟨by norm_num, h⟩

/-- C3: every result of `runBenchmark` either has its error field set
and `writeTime = readTime = 0`, or has no error and nonnegative
`writeTime` and `readTime`.  The hypothesis states that the host's
monotonic timer yields nonnegative durations for every trial. -/
theorem C3_result_invariant (a : StorageAdapter) (s : BenchmarkSuite)
    (hnn : ∀ key data i w r, a.trial key data i = .ok (w, r) → 0 ≤ w ∧ 0 ≤ r) :
    ∀ r ∈ runBenchmark a s,
      ((∃ m, r.error = some m) ∧ r.writeTime = 0 ∧ r.readTime = 0) ∨
      (r.error = none ∧ 0 ≤ r.writeTime ∧ 0 ≤ r.readTime) := by
  intro r hr
  obtain ⟨p, hp, rfl⟩ := List.mem_map.mp hr
  rcases h : measurePayload a p with ⟨res, c⟩
  cases res with
  | error e =>
    left
    rw [processPayload_err h]
    exact ⟨⟨errMessage e, rfl⟩, rfl, rfl⟩
  | ok pr =>
    obtain ⟨w, rr⟩ := pr
    right
    rw [processPayload_ok h]
    exact ⟨rfl, (measurePayload_ok_nonneg hnn h).1, (measurePayload_ok_nonneg hnn h).2⟩

/-- Witness for C3 at a concrete adapter and suite. -/
theorem C3_result_invariant_witness :
    ((∃ m, wResultFast.error = some m) ∧ wResultFast.writeTime = 0 ∧ wResultFast.readTime = 0) ∨
    (wResultFast.error = none ∧ 0 ≤ wResultFast.writeTime ∧ 0 ≤ wResultFast.readTime) := by
  refine C3_result_invariant wAdapterFast wSuite ?_ wResultFast wResultFast_mem
  intro key data i w r h
  obtain ⟨hw, hr⟩ := Prod.mk.injEq .. ▸ (Except.ok.inj h)
  constructor
  · rw [← hw]; norm_num
  · rw [← hr]; norm_num

/-- C4: when an adapter operation throws while a payload is processed,
the engine abandons the remaining trials for that payload, records a
result with the thrown message (or the generic fallback, folded into
`errMessage`) and zeroed timings, and still produces a result for every
payload of the suite. -/
theorem C4_payload_error_isolated (a : StorageAdapter) (s : BenchmarkSuite) (p : Payload)
    (e : Option String) (w0 r0 : ℚ)
    (h0 : a.trial (keyFor p) (generatePayload p.size) 0 = .ok (w0, r0))
    (hlt : w0 + r0 < 10)
    (h1 : a.trial (keyFor p) (generatePayload p.size) 1 = .error e) :
    trialsPerformed a p = 2 ∧
    processPayload a s.name p =
      { adapterName := a.name, suiteName := s.name, payloadSize := p.label,
        writeTime := 0, readTime := 0, blockingTime := 0,
        error := some (errMessage e) } ∧
    (runBenchmark a s).length = s.payloads.length ∧
    ∀ q ∈ s.payloads, processPayload a s.name q ∈ runBenchmark a s := by
  have hm := measurePayload_err1 h0 hlt h1
  exact ⟨by unfold trialsPerformed; rw [hm], processPayload_err hm,
    by simp [runBenchmark], fun q hq => List.mem_map_of_mem _ hq⟩

/-- Witness for C4: the fixture adapter throws "boom" on its second
trial of the first payload of a two-payload suite. -/
theorem C4_payload_error_isolated_witness :
    trialsPerformed wAdapterErr wPayload = 2 ∧
    processPayload wAdapterErr wSuiteE.name wPayload =
      { adapterName := wAdapterErr.name, suiteName := wSuiteE.name,
        payloadSize := wPayload.label, writeTime := 0, readTime := 0,
        blockingTime := 0, error := some (errMessage (some "boom")) } ∧
    (runBenchmark wAdapterErr wSuiteE).length = wSuiteE.payloads.length ∧
    ∀ q ∈ wSuiteE.payloads, processPayload wAdapterErr wSuiteE.name q ∈
      runBenchmark wAdapterErr wSuiteE :=
  C4_payload_error_isolated wAdapterErr wSuiteE wPayload (some "boom") 2 3
    rfl (by norm_num) rfl

/-- C7: a successful result's `blockingTime` equals
`writeTime + readTime` exactly when the adapter is one of the
synchronous backends (localStorage, sessionStorage, Cookies), and is the
0.5 ms placeholder otherwise. -/
theorem C7_blocking_time (a : StorageAdapter) (s : BenchmarkSuite) :
    ∀ r ∈ runBenchmark a s, r.error = none →
      ((a.name = "localStorage" ∨ a.name = "sessionStorage" ∨ a.name = "Cookies") →
        r.blockingTime = r.writeTime + r.readTime) ∧
      (¬(a.name = "localStorage" ∨ a.name = "sessionStorage" ∨ a.name = "Cookies") →
        r.blockingTime = 1/2) := by
  intro r hr herr
  obtain ⟨p, hp, rfl⟩ := List.mem_map.mp hr
  rcases h : measurePayload a p with ⟨res, c⟩
  cases res with
  | error e => rw [processPayload_err h] at herr; simp at herr
  | ok pr =>
    obtain ⟨w, rr⟩ := pr
    rw [processPayload_ok h]
    constructor
    · intro hs; simp [if_pos hs]
    · intro hs; simp [if_neg hs]

/-- Witness for C7 at a synchronous-named adapter. -/
theorem C7_blocking_time_witness :
    wResultFast.blockingTime = wResultFast.writeTime + wResultFast.readTime :=
  ((C7_blocking_time wAdapterFast wSuite) wResultFast wResultFast_mem rfl).1 (Or.inl rfl)

/-! ## Helper lemmas on the byte-level models -/

theorem lookupStore_setStore_self (st : Store) (k v : Bytes) :
    lookupStore (setStore st k v) k = some v := by
  induction st with
  | nil => simp [setStore, lookupStore]
  | cons e t ih =>
    obtain ⟨k', v'⟩ := e
    by_cases h : k' = k
    · simp [setStore, lookupStore, h]
    · simp [setStore, lookupStore, h, ih]

theorem mem_setStore {e : Bytes × Bytes} {st : Store} {k v : Bytes}
    (h : e ∈ setStore st k v) : e = (k, v) ∨ e ∈ st := by
  induction st with
  | nil => simp [setStore] at h; exact Or.inl h
  | cons e2 t ih =>
    obtain ⟨k', v'⟩ := e2
    by_cases hk : k' = k
    · rw [setStore, if_pos hk] at h
      rcases List.mem_cons.mp h with h1 | h1
      · exact Or.inl h1
      · exact Or.inr (List.mem_cons_of_mem _ h1)
    · rw [setStore, if_neg hk] at h
      rcases List.mem_cons.mp h with h1 | h1
      · exact Or.inr (h1 ▸ List.mem_cons_self _ _)
      · rcases ih h1 with h2 | h2
        · exact Or.inl h2
        · exact Or.inr (List.mem_cons_of_mem _ h2)

theorem setStore_ne_nil (st : Store) (k v : Bytes) : setStore st k v ≠ [] := by
  cases st with
  | nil => simp [setStore]
  | cons e t =>
    obtain ⟨k', v'⟩ := e
    by_cases h : k' = k <;> simp [setStore, h]

theorem eraseStore_of_lookup_none {st : Store} {k : Bytes}
    (h : lookupStore st k = none) : eraseStore st k = st := by
  induction st with
  | nil => rfl
  | cons e t ih =>
    obtain ⟨k', v'⟩ := e
    rw [lookupStore] at h
    by_cases hk : k' = k
    · rw [if_pos hk] at h; exact absurd h (by simp)
    · rw [if_neg hk] at h
      have : ((k', v').1 == k) = false := by simp [hk]
      simp only [eraseStore, List.filter_cons, this, Bool.not_false, if_true]
      rw [show t.filter (fun e => !(e.1 == k)) = eraseStore t k from rfl, ih h]

theorem hexDigit_ne (n : Nat) :
    hexDigit n ≠ 32 ∧ hexDigit n ≠ 37 ∧ hexDigit n ≠ 59 ∧ hexDigit n ≠ 61 := by
  unfold hexDigit
  split <;> omega

theorem unreserved_ne {b : Nat} (hb : isUnreservedByte b = true) :
    b ≠ 32 ∧ b ≠ 37 ∧ b ≠ 59 ∧ b ≠ 61 := by
  refine ⟨?_, ?_, ?_, ?_⟩ <;> rintro rfl <;> exact absurd hb (by decide)

theorem mem_encodeURI {b : Nat} :
    ∀ {x : Bytes}, b ∈ encodeURI x → b ≠ 32 ∧ b ≠ 59 ∧ b ≠ 61 := by
  intro x
  induction x with
  | nil => intro h; simp [encodeURI] at h
  | cons a t ih =>
    intro h
    rw [encodeURI] at h
    rcases List.mem_append.mp h with h1 | h1
    · unfold encByte at h1
      by_cases hu : isUnreservedByte a
      · rw [if_pos hu] at h1
        rw [List.mem_singleton.mp h1]
        obtain ⟨x1, _, x3, x4⟩ := unreserved_ne hu
        exact ⟨x1, x3, x4⟩
      · rw [if_neg hu] at h1
        rcases List.mem_cons.mp h1 with h2 | h2
        · subst h2; exact ⟨by omega, by omega, by omega⟩
        rcases List.mem_cons.mp h2 with h3 | h3
        · subst h3
          obtain ⟨x1, _, x3, x4⟩ := hexDigit_ne (a / 16)
          exact ⟨x1, x3, x4⟩
        rcases List.mem_cons.mp h3 with h4 | h4
        · subst h4
          obtain ⟨x1, _, x3, x4⟩ := hexDigit_ne (a % 16)
          exact ⟨x1, x3, x4⟩
        · simp at h4
    · exact ih h1

theorem hexVal_hexDigit {n : Nat} (h : n < 16) : hexVal (hexDigit n) = n := by
  interval_cases n <;> decide

theorem decodeURI_cons_ne {b : Nat} {l : Bytes} (h : b ≠ 37) :
    decodeURI (b :: l) = b :: decodeURI l := by
  cases l with
  | nil => simp [decodeURI, h]
  | cons c l2 =>
    cases l2 with
    | nil => simp [decodeURI, h]
    | cons d l3 => simp [decodeURI, h]

theorem decodeURI_percent (h1 h2 : Nat) (t : Bytes) :
    decodeURI (37 :: h1 :: h2 :: t) = (16 * hexVal h1 + hexVal h2) :: decodeURI t := by
  simp [decodeURI]

theorem decode_encode : ∀ (v : Bytes), (∀ b ∈ v, b < 256) →
    decodeURI (encodeURI v) = v := by
  intro v
  induction v with
  | nil => intro _; rfl
  | cons b t ih =>
    intro h
    have hb : b < 256 := h b (List.mem_cons_self _ _)
    have ht : ∀ x ∈ t, x < 256 := fun x hx => h x (List.mem_cons_of_mem _ hx)
    rw [encodeURI]
    unfold encByte
    by_cases hu : isUnreservedByte b
    · rw [if_pos hu]
      have hne : b ≠ 37 := (unreserved_ne hu).2.1
      rw [List.singleton_append, decodeURI_cons_ne hne, ih ht]
    · rw [if_neg hu]
      rw [List.cons_append, List.cons_append, List.cons_append, List.nil_append]
      rw [decodeURI_percent]
      rw [hexVal_hexDigit (by omega : b / 16 < 16),
        hexVal_hexDigit (by omega : b % 16 < 16), ih ht]
      congr 1
      omega

theorem splitB_no_sep {sep : Nat} : ∀ {r : Bytes}, sep ∉ r → splitB sep r = [r] := by
  intro r
  induction r with
  | nil => intro _; rfl
  | cons b t ih =>
    intro h
    have hb : b ≠ sep := fun hb => h (hb ▸ List.mem_cons_self _ _)
    have ht : sep ∉ t := fun hm => h (List.mem_cons_of_mem _ hm)
    rw [splitB, if_neg hb, ih ht]

theorem splitB_append {sep : Nat} : ∀ {r : Bytes} (t : Bytes), sep ∉ r →
    splitB sep (r ++ sep :: t) = r :: splitB sep t := by
  intro r
  induction r with
  | nil => intro t _; rw [List.nil_append, splitB, if_pos rfl]
  | cons b r2 ih =>
    intro t h
    have hb : b ≠ sep := fun hb => h (hb ▸ List.mem_cons_self _ _)
    have ht : sep ∉ r2 := fun hm => h (List.mem_cons_of_mem _ hm)
    rw [List.cons_append, splitB, if_neg hb, ih t ht]

/-- The segments `CookieAdapter.read` sees: the first cookie verbatim,
every later one preceded by the single space the `"; "` join inserts. -/
def withSpaces : List Bytes → List Bytes
  | [] => []
  | r :: rs => r :: rs.map (fun s => 32 :: s)

theorem splitB_joinSemi : ∀ (rs : List Bytes), rs ≠ [] → (∀ r ∈ rs, 59 ∉ r) →
    splitB 59 (joinSemi rs) = withSpaces rs := by
  intro rs
  induction rs with
  | nil => intro h; exact absurd rfl h
  | cons r rs2 ih =>
    intro _ h59
    have hr : 59 ∉ r := h59 r (List.mem_cons_self _ _)
    cases rs2 with
    | nil => rw [joinSemi, splitB_no_sep hr]; rfl
    | cons r2 t =>
      rw [joinSemi]
      rw [splitB_append _ hr]
      rw [splitB, if_neg (by omega : (32 : Nat) ≠ 59)]
      rw [ih (by simp) (fun x hx => h59 x (List.mem_cons_of_mem _ hx))]
      rfl

theorem dropSpaces_cons_space (l : Bytes) : dropSpaces (32 :: l) = dropSpaces l := by
  rw [dropSpaces, if_pos rfl]

theorem dropSpaces_render {n : Bytes} (v : Bytes) (hn : 32 ∉ n) :
    dropSpaces (n ++ 61 :: v) = n ++ 61 :: v := by
  cases n with
  | nil => rw [List.nil_append, dropSpaces, if_neg (by omega : (61 : Nat) ≠ 32)]
  | cons b n2 =>
    have hb : b ≠ 32 := fun hb => hn (hb ▸ List.mem_cons_self _ _)
    rw [List.cons_append, dropSpaces, if_neg hb]

theorem hasPrefixB_append : ∀ (p r : Bytes), hasPrefixB p (p ++ r) = true := by
  intro p r
  induction p with
  | nil => rfl
  | cons b t ih => simp [hasPrefixB, ih]

theorem hasPrefixB_ne : ∀ (a b v2 : Bytes), a ≠ b → 61 ∉ a → 61 ∉ b →
    hasPrefixB (a ++ [61]) (b ++ 61 :: v2) = false := by
  intro a
  induction a with
  | nil =>
    intro b v2 hne ha hb
    cases b with
    | nil => exact absurd rfl hne
    | cons x b2 =>
      have hx : x ≠ 61 := fun h => hb (h ▸ List.mem_cons_self _ _)
      simp [hasPrefixB]
      exact fun h => hx h.symm
  | cons y a2 ih =>
    intro b v2 hne ha hb
    have hy : y ≠ 61 := fun h => ha (h ▸ List.mem_cons_self _ _)
    cases b with
    | nil => simp [hasPrefixB, hy]
    | cons x b2 =>
      by_cases hxy : y = x
      · subst hxy
        have hab : a2 ≠ b2 := fun h => hne (h ▸ rfl)
        have ha2 : 61 ∉ a2 := fun h => ha (List.mem_cons_of_mem _ h)
        have hb2 : 61 ∉ b2 := fun h => hb (List.mem_cons_of_mem _ h)
        simp [hasPrefixB, ih b2 v2 hab ha2 hb2]
      · simp [hasPrefixB, hxy]

theorem findCookieSeg_map_space (nEQ : Bytes) :
    ∀ (rs : List Bytes),
      findCookieSeg nEQ (rs.map (fun s => 32 :: s)) = findCookieSeg nEQ rs := by
  intro rs
  induction rs with
  | nil => rfl
  | cons r t ih =>
    rw [List.map_cons, findCookieSeg, findCookieSeg, dropSpaces_cons_space, ih]

theorem findCookieSeg_withSpaces (nEQ : Bytes) (rs : List Bytes) :
    findCookieSeg nEQ (withSpaces rs) = findCookieSeg nEQ rs := by
  cases rs with
  | nil => rfl
  | cons r t =>
    rw [withSpaces, findCookieSeg, findCookieSeg, findCookieSeg_map_space]

theorem findCookieSeg_head (k v : Bytes) (hvb : ∀ b ∈ v, b < 256)
    (rest : List Bytes) :
    findCookieSeg (encodeURI k ++ [61])
      (renderCookie (encodeURI k, encodeURI v) :: rest) = some v := by
  have hn32 : 32 ∉ encodeURI k := fun h => (mem_encodeURI h).1 rfl
  have hshape : renderCookie (encodeURI k, encodeURI v) =
      (encodeURI k ++ [61]) ++ encodeURI v := by
    simp [renderCookie]
  rw [findCookieSeg]
  rw [show dropSpaces (renderCookie (encodeURI k, encodeURI v)) =
      renderCookie (encodeURI k, encodeURI v) from dropSpaces_render _ hn32]
  rw [hshape, if_pos (hasPrefixB_append _ _), List.drop_left]
  rw [decode_encode v hvb]

theorem findCookieSeg_setStore (k v : Bytes) (hvb : ∀ b ∈ v, b < 256) :
    ∀ (es : Store), (∀ e ∈ es, 61 ∉ e.1 ∧ 32 ∉ e.1) →
      findCookieSeg (encodeURI k ++ [61])
        ((setStore es (encodeURI k) (encodeURI v)).map renderCookie) = some v := by
  intro es
  induction es with
  | nil => intro _; rw [setStore, List.map_cons, List.map_nil, findCookieSeg_head k v hvb]
  | cons e t ih =>
    intro hwf
    obtain ⟨n2, v2⟩ := e
    by_cases hk : n2 = encodeURI k
    · rw [setStore, if_pos hk, List.map_cons, findCookieSeg_head k v hvb]
    · rw [setStore, if_neg hk, List.map_cons, findCookieSeg]
      have hwf1 := hwf (n2, v2) (List.mem_cons_self _ _)
      have hd : dropSpaces (renderCookie (n2, v2)) = n2 ++ 61 :: v2 :=
        dropSpaces_render _ hwf1.2
      have h61k : 61 ∉ encodeURI k := fun h => (mem_encodeURI h).2.2 rfl
      have hpf : hasPrefixB (encodeURI k ++ [61]) (n2 ++ 61 :: v2) = false :=
        hasPrefixB_ne _ _ _ (fun h => hk h.symm) h61k hwf1.1
      rw [show renderCookie (n2, v2) = n2 ++ 61 :: v2 from rfl] at hd ⊢
      rw [hd, hpf, if_neg (by simp)]
      exact ih fun e he => hwf e (List.mem_cons_of_mem _ he)

/-- Round trip of the cookie adapter over any well-formed jar: the
URL-encoding applied by `write` is exactly undone by the decoding in
`read`. -/
theorem cookie_roundtrip (jar : CookieJar) (hwf : jarWF jar) (k v : Bytes)
    (hvb : ∀ b ∈ v, b < 256) :
    cookieRead (cookieWrite jar k v) k = some v := by
  rw [cookieRead, cookieWrite, cookieString]
  have h59 : ∀ r ∈ (setStore jar.entries (encodeURI k) (encodeURI v)).map renderCookie,
      59 ∉ r := by
    intro r hr hm
    obtain ⟨e, he, rfl⟩ := List.mem_map.mp hr
    obtain ⟨n2, v2⟩ := e
    rcases List.mem_append.mp hm with h1 | h1
    · rcases mem_setStore he with h2 | h2
      · obtain ⟨hn, _⟩ := Prod.mk.injEq .. ▸ h2
        exact (mem_encodeURI (hn ▸ h1)).2.1 rfl
      · exact (hwf _ h2).1 h1
    · rcases List.mem_cons.mp h1 with h2 | h2
      · omega
      · rcases mem_setStore he with h3 | h3
        · obtain ⟨_, hv⟩ := Prod.mk.injEq .. ▸ h3
          exact (mem_encodeURI (hv ▸ h2)).2.1 rfl
        · exact (hwf _ h3).2.2.2 h2
  have hne : (setStore jar.entries (encodeURI k) (encodeURI v)).map renderCookie ≠ [] := by
    simp [setStore_ne_nil]
  rw [splitB_joinSemi _ hne h59, findCookieSeg_withSpaces]
  exact findCookieSeg_setStore k v hvb jar.entries
    (fun e he => ⟨(hwf e he).2.1, (hwf e he).2.2.1⟩)

/-- Witness fixture: a 128-byte value of 'a' bytes. -/
def wVal : Bytes := List.replicate 128 97

/-- Witness fixture: a one-byte key. -/
def wKey : Bytes := [107]

/-- C5: for every adapter, write(k, v) followed by read(k) returns
exactly v, byte for byte, for non-empty values of at least 128 bytes
(for the cookie adapter the URL-encoding applied by `write` is exactly
undone by the decoding in `read`; the OPFS adapter requires the
capability to be present for the write to succeed). -/
theorem C5_roundtrip (k v : Bytes) (st1 st2 st3 st4 st5 st6 st7 st8 : Store)
    (opfs : OPFSState) (jar : CookieJar)
    (hv : v ≠ []) (_hlen : 128 ≤ v.length) (hvb : ∀ b ∈ v, b < 256)
    (hsup : opfs.supported = true) (hwf : jarWF jar) :
    lsRead (lsWrite st1 k v) k = some v ∧
    ssRead (ssWrite st2 k v) k = some v ∧
    idbRead (idbWrite st3 k v) k = some v ∧
    cacheRead (cacheWrite st4 k v) k = some v ∧
    dexieRead (dexieWrite st5 k v) k = some v ∧
    storeJsRead (storeJsWrite st6 k v) k = some v ∧
    pouchRead (pouchWrite st7 k v) k = some v ∧
    lfRead (lfWrite st8 k v) k = some v ∧
    opfsWrite opfs k v = .ok ⟨true, setStore opfs.files k v⟩ ∧
    opfsRead ⟨true, setStore opfs.files k v⟩ k = .ok (some v) ∧
    cookieRead (cookieWrite jar k v) k = some v := by
  refine ⟨lookupStore_setStore_self st1 k v, lookupStore_setStore_self st2 k v, ?_,
    lookupStore_setStore_self st4 k v, lookupStore_setStore_self st5 k v, ?_,
    lookupStore_setStore_self st7 k v, lookupStore_setStore_self st8 k v, ?_, ?_,
    cookie_roundtrip jar hwf k v hvb⟩
  · rw [idbRead, idbWrite, lookupStore_setStore_self]
    simp [hv]
  · rw [storeJsRead, storeJsWrite, lookupStore_setStore_self]
    simp [hv]
  · rw [opfsWrite, opfsGetRoot, hsup]; rfl
  · simp [opfsRead, opfsReadImpl, opfsGetRoot, lookupStore_setStore_self]

set_option maxRecDepth 4000 in
/-- Witness for C5 at a concrete 128-byte value, empty stores, a
supported OPFS and an empty jar. -/
theorem C5_roundtrip_witness :
    lsRead (lsWrite [] wKey wVal) wKey = some wVal ∧
    ssRead (ssWrite [] wKey wVal) wKey = some wVal ∧
    idbRead (idbWrite [] wKey wVal) wKey = some wVal ∧
    cacheRead (cacheWrite [] wKey wVal) wKey = some wVal ∧
    dexieRead (dexieWrite [] wKey wVal) wKey = some wVal ∧
    storeJsRead (storeJsWrite [] wKey wVal) wKey = some wVal ∧
    pouchRead (pouchWrite [] wKey wVal) wKey = some wVal ∧
    lfRead (lfWrite [] wKey wVal) wKey = some wVal ∧
    opfsWrite ⟨true, []⟩ wKey wVal = .ok ⟨true, setStore [] wKey wVal⟩ ∧
    opfsRead ⟨true, setStore [] wKey wVal⟩ wKey = .ok (some wVal) ∧
    cookieRead (cookieWrite ⟨[]⟩ wKey wVal) wKey = some wVal :=
  C5_roundtrip wKey wVal [] [] [] [] [] [] [] [] ⟨true, []⟩ ⟨[]⟩
    (by decide) (by decide) (by decide) rfl (by simp [jarWF])

set_option maxRecDepth 4000 in
/-- C6 (the claim fails on the code): `CookieAdapter.clear` extracts the
raw — already encoded — cookie name and hands it to `delete`, which
encodes it a second time; a cookie whose name is not a fixed point of
`encodeURIComponent` (here the key "a b", stored as name "a%20b")
therefore survives `clear()` and is still readable afterwards. -/
theorem C6_cookie_clear_misses_encoded_names :
    cookieRead (cookieClear (cookieWrite ⟨[]⟩ [97, 32, 98] [118])) [97, 32, 98] =
      some [118] := by decide

/-- C8 counterexample: the OPFS adapter's `delete` on an absent key does
not succeed — `removeEntry` rejects with `NotFoundError` and the adapter
does not handle it. -/
theorem C8_opfs_delete_absent_fails :
    opfsDelete ⟨true, []⟩ [97] = .error "NotFoundError" := rfl

/-- C8 amended: `delete` on an absent key succeeds without error for
every adapter except OPFS (shown for the map-backed adapters, the cookie
adapter and PouchDB, whose 404 is swallowed); the OPFS adapter's
`delete` instead fails with the backend's `NotFoundError`. -/
theorem C8_delete_absent_amended (st : Store) (opfs : OPFSState) (k : Bytes)
    (hs : lookupStore st k = none) (hc : lookupStore st (encodeURI k) = none)
    (hsup : opfs.supported = true) (ho : lookupStore opfs.files k = none) :
    pouchDelete st k = .ok st ∧
    lsDelete st k = st ∧
    ssDelete st k = st ∧
    idbDelete st k = st ∧
    cacheDelete st k = st ∧
    dexieDelete st k = st ∧
    storeJsDelete st k = st ∧
    lfDelete st k = st ∧
    cookieDelete ⟨st⟩ k = ⟨st⟩ ∧
    opfsDelete opfs k = .error "NotFoundError" := by
  refine ⟨by rw [pouchDelete, hs], eraseStore_of_lookup_none hs,
    eraseStore_of_lookup_none hs, eraseStore_of_lookup_none hs,
    eraseStore_of_lookup_none hs, eraseStore_of_lookup_none hs,
    eraseStore_of_lookup_none hs, eraseStore_of_lookup_none hs, ?_, ?_⟩
  · rw [cookieDelete, eraseStore_of_lookup_none hc]
  · rw [opfsDelete, opfsGetRoot, hsup]
    simp [ho]

/-- Witness for the amended C8 at empty stores. -/
theorem C8_delete_absent_amended_witness :
    pouchDelete [] [97] = .ok [] ∧
    lsDelete [] [97] = [] ∧
    ssDelete [] [97] = [] ∧
    idbDelete [] [97] = [] ∧
    cacheDelete [] [97] = [] ∧
    dexieDelete [] [97] = [] ∧
    storeJsDelete [] [97] = [] ∧
    lfDelete [] [97] = [] ∧
    cookieDelete ⟨[]⟩ [97] = ⟨[]⟩ ∧
    opfsDelete ⟨true, []⟩ [97] = .error "NotFoundError" :=
  C8_delete_absent_amended [] ⟨true, []⟩ [97] rfl rfl rfl rfl

/-- C9 counterexample: with the OPFS capability absent, `read` does not
fail with 'OPFS not supported' — its catch-all swallows the error and
returns a normal absent result. -/
theorem C9_opfs_read_unsupported_returns_absent :
    opfsRead ⟨false, []⟩ [97] = .ok none := rfl

/-- C9 amended: when the OPFS capability is absent, `write`, `delete`
and `clear` fail fast with the descriptive error 'OPFS not supported',
while `read` swallows that error and returns the normal absent result. -/
theorem C9_opfs_unsupported_amended (st : OPFSState) (k v : Bytes)
    (h : st.supported = false) :
    opfsWrite st k v = .error "OPFS not supported" ∧
    opfsDelete st k = .error "OPFS not supported" ∧
    opfsClear st = .error "OPFS not supported" ∧
    opfsRead st k = .ok none := by
  refine ⟨by rw [opfsWrite, opfsGetRoot, h]; rfl, by rw [opfsDelete, opfsGetRoot, h]; rfl,
    by rw [opfsClear, opfsGetRoot, h]; rfl, ?_⟩
  rw [opfsRead, opfsReadImpl, opfsGetRoot, h]; rfl

/-- Witness for the amended C9. -/
theorem C9_opfs_unsupported_amended_witness :
    opfsWrite ⟨false, []⟩ [97] [98] = .error "OPFS not supported" ∧
    opfsDelete ⟨false, []⟩ [97] = .error "OPFS not supported" ∧
    opfsClear ⟨false, []⟩ = .error "OPFS not supported" ∧
    opfsRead ⟨false, []⟩ [97] = .ok none :=
  C9_opfs_unsupported_amended ⟨false, []⟩ [97] [98] rfl

/-- C10: for the store.js and IndexedDB adapters, a stored empty string
reads back as the absent indicator because of the `|| null` coercion, so
the round trip fails exactly at the empty string for these two adapters:
every non-empty value still round-trips. -/
theorem C10_empty_string_coerced (st1 st2 : Store) (k v : Bytes) (hv : v ≠ []) :
    storeJsRead (storeJsWrite st1 k []) k = none ∧
    idbRead (idbWrite st2 k []) k = none ∧
    storeJsRead (storeJsWrite st1 k v) k = some v ∧
    idbRead (idbWrite st2 k v) k = some v := by
  refine ⟨?_, ?_, ?_, ?_⟩
  · rw [storeJsRead, storeJsWrite, lookupStore_setStore_self]; rfl
  · rw [idbRead, idbWrite, lookupStore_setStore_self]; rfl
  · rw [storeJsRead, storeJsWrite, lookupStore_setStore_self]; simp [hv]
  · rw [idbRead, idbWrite, lookupStore_setStore_self]; simp [hv]

/-- Witness for C10 at a concrete key and value. -/
theorem C10_empty_string_coerced_witness :
    storeJsRead (storeJsWrite [] [107] []) [107] = none ∧
    idbRead (idbWrite [] [107] []) [107] = none ∧
    storeJsRead (storeJsWrite [] [107] [97]) [107] = some [97] ∧
    idbRead (idbWrite [] [107] [97]) [107] = some [97] :=
  C10_empty_string_coerced [] [] [107] [97] (by decide)
